import Mathlib

/-
Verification of the product-scoped messaging subsystem of the Masociete
marketplace.

The embedding below follows the source:
- the client message service (messageService in the database service module:
  getUserConversations, getProductMessages, sendProductMessage,
  markMessagesAsRead, getUnreadMessageCount, subscribeToUserMessages,
  subscribeToProductMessages);
- the React hooks in src/contexts/AuthContext.tsx (useConversations with
  fetchConversations, useProductMessages with fetchMessages, the realtime
  merge callback, and sendMessage).

Timestamps (created_at, read_at) are modelled as Nat: the code compares them
through new Date(x).getTime(), a numeric value.  A JavaScript Map is modelled
as an association list in key-insertion order: Map.set replaces the value of
an existing key in place and otherwise appends; Map iteration follows that
order.  Array.prototype.sort is a stable sort; it is modelled with
List.insertionSort, which is stable for the total preorder used here.

The bodies of the backend RPC functions (send_product_message,
mark_product_messages_as_read) are not part of the repository snapshot: only
their typed declarations and their call sites appear.  Those two operations
are modelled from the spec, and each such definition is marked
"Modelled from the spec".
-/

namespace Masociete

/-! ## Data model -/

/-- The decorated message shape held by the client cache
(ProductMessage in AuthContext.tsx). -/
structure ProductMessage where
  id : String
  product_id : String
  sender_id : String
  recipient_id : String
  content : String
  read_at : Option Nat
  created_at : Nat
  sender_name : String
  recipient_name : String
deriving DecidableEq

/-- Comparator used by the cache sorts:
(a, b) => new Date(a.created_at).getTime() - new Date(b.created_at).getTime(). -/
def byCreatedAt : ProductMessage → ProductMessage → Prop :=
  fun a b => a.created_at ≤ b.created_at

instance : DecidableRel byCreatedAt :=
  fun a b => Nat.decLe a.created_at b.created_at

instance : IsTotal ProductMessage byCreatedAt :=
  ⟨fun a b => Nat.le_total a.created_at b.created_at⟩

instance : IsTrans ProductMessage byCreatedAt :=
  ⟨fun _ _ _ hab hbc => Nat.le_trans hab hbc⟩

/-- Model of JavaScript String.prototype.trim: strip whitespace from both
ends.  (String.trim of the Lean core library computes the same value but does
not reduce inside the kernel, so the character-list form is used.) -/
def jsTrim (s : String) : String :=
  ⟨((s.data.dropWhile Char.isWhitespace).reverse.dropWhile Char.isWhitespace).reverse⟩

/-! ## JavaScript Map model

A Map is an association list in key-insertion order.  map.set(k, v) replaces
the value of an existing key k in place, otherwise appends the new binding;
map.get(k) returns the value bound to k; Array.from(map.values()) lists the
values in key-insertion order. -/

def mapSet {α : Type} (m : List (String × α)) (k : String) (v : α) :
    List (String × α) :=
  if m.any (fun p => decide (p.1 = k)) then
    m.map (fun p => if p.1 = k then (k, v) else p)
  else m ++ [(k, v)]

def mapGet {α : Type} (m : List (String × α)) (k : String) : Option α :=
  (m.find? (fun p => decide (p.1 = k))).map Prod.snd

def mapValues {α : Type} (m : List (String × α)) : List α :=
  m.map Prod.snd

/-! ## Client Conversation Cache (useProductMessages in AuthContext.tsx) -/

/-- The initial bulk-fetch path (fetchMessages): build uniqueMessages, a Map
keyed by msg.id over the fetched rows, then sort the values by created_at
ascending. -/
def fetchMessagesResult (data : List ProductMessage) : List ProductMessage :=
  List.insertionSort byCreatedAt
    (mapValues (data.foldl (fun acc msg => mapSet acc msg.id msg) []))

/-- The realtime-push merge (the setMessages updater of the
subscribeToProductMessages callback): if the id is already cached return the
previous list unchanged, otherwise append and re-sort by created_at. -/
def mergePush (prev : List ProductMessage) (newMessage : ProductMessage) :
    List ProductMessage :=
  if prev.any (fun msg => decide (msg.id = newMessage.id)) then prev
  else List.insertionSort byCreatedAt (prev ++ [newMessage])

/-! ## Realtime Channel (messageService.subscribeTo* in the service module) -/

/-- The raw row carried by a postgres_changes INSERT event on the messages
table. -/
structure RawMessage where
  id : String
  product_id : String
  sender_id : String
  recipient_id : String
  content : String
  read_at : Option Nat
  created_at : Nat
deriving DecidableEq

/-- A joined user reference (id, name) as returned by the select on
users!messages_sender_id_fkey / users!messages_recipient_id_fkey. -/
structure UserRef where
  id : String
  name : String
deriving DecidableEq

/-- The re-fetched message row with its joined sender and recipient user
records; either join may come back null. -/
structure FetchedMessage where
  id : String
  product_id : String
  sender_id : String
  recipient_id : String
  content : String
  read_at : Option Nat
  created_at : Nat
  sender : Option UserRef
  recipient : Option UserRef
deriving DecidableEq

/-- messageWithUsers.sender?.name with the Unknown fallback: a missing join
or a falsy (empty) name falls back to the placeholder. -/
def orUnknown (u : Option UserRef) : String :=
  match u with
  | none => "Unknown"
  | some s => if s.name = "" then "Unknown" else s.name

/-- The object passed to the callback of subscribeToProductMessages. -/
def decorate (r : FetchedMessage) : ProductMessage :=
  ⟨r.id, r.product_id, r.sender_id, r.recipient_id, r.content, r.read_at,
    r.created_at, orUnknown r.sender, orUnknown r.recipient⟩

/-- The counterparty check inside the subscribeToProductMessages handler:
(sender = me and recipient = other) or (sender = other and recipient = me). -/
def pairFilter (u otherUserId : String) (ev : RawMessage) : Bool :=
  (decide (ev.sender_id = u) && decide (ev.recipient_id = otherUserId)) ||
    (decide (ev.sender_id = otherUserId) && decide (ev.recipient_id = u))

/-- The channel filter of subscribeToUserMessages:
or(sender_id.eq.userId, recipient_id.eq.userId). -/
def userScopeFilter (userId : String) (ev : RawMessage) : Bool :=
  decide (ev.sender_id = userId) || decide (ev.recipient_id = userId)

/-- One delivery attempt of the product-scoped subscription: the channel
filter product_id=eq.productId, then the current-user guard, then the
counterparty check, then the decorated re-fetch (fetched, which the handler
requires to be non-null before invoking the callback).  Returns the argument
passed to the callback, or none when the callback is not invoked. -/
def deliverProduct (productId otherUserId : String) (currentUser : Option String)
    (ev : RawMessage) (fetched : Option FetchedMessage) : Option ProductMessage :=
  if ev.product_id = productId then
    match currentUser with
    | none => none
    | some u =>
      if pairFilter u otherUserId ev then fetched.map decorate else none
  else none

/-- Handle returned by subscribeToUserMessages: the live channel subscription
on success, the catch-branch object with a no-op unsubscribe on failure. -/
inductive UserSubHandle where
  | active (userId : String)
  | inert
deriving DecidableEq

/-- Handle returned by subscribeToProductMessages. -/
inductive ProductSubHandle where
  | activeP (productId otherUserId : String)
  | inertP
deriving DecidableEq

/-- subscribeToUserMessages: the try body builds the channel subscription;
setupOk = false stands for checkSupabaseConfig (or channel setup) throwing,
in which case the catch branch returns the no-op handle. -/
def subscribeToUserMessages (setupOk : Bool) (userId : String) : UserSubHandle :=
  if setupOk then .active userId else .inert

/-- subscribeToProductMessages, same failure policy. -/
def subscribeToProductMessages (setupOk : Bool) (productId otherUserId : String) :
    ProductSubHandle :=
  if setupOk then .activeP productId otherUserId else .inertP

/-- Unsubscribing a user-scope handle.  On the inert handle this is the
literal () => \x7b\x7d of the catch branch, which returns without throwing;
on a live handle it delegates to the channel teardown (external, an oracle
argument here). -/
def userUnsubscribe (external : Except String Unit) :
    UserSubHandle → Except String Unit :=
  fun h => match h with
  | .inert => .ok ()
  | .active _ => external

/-- Unsubscribing a product-scope handle. -/
def productUnsubscribe (external : Except String Unit) :
    ProductSubHandle → Except String Unit :=
  fun h => match h with
  | .inertP => .ok ()
  | .activeP _ _ => external

/-- Whether an event reaches the callback of a user-scope handle. -/
def deliverUser (h : UserSubHandle) (ev : RawMessage) : Bool :=
  match h with
  | .inert => false
  | .active u => userScopeFilter u ev

/-- Delivery through a product-scope handle; the inert handle has no
registered callback at all. -/
def deliverOnProductHandle (h : ProductSubHandle) (currentUser : Option String)
    (ev : RawMessage) (fetched : Option FetchedMessage) : Option ProductMessage :=
  match h with
  | .inertP => none
  | .activeP pid oid => deliverProduct pid oid currentUser ev fetched

/-! ## Message Store -/

/-- A persisted row of the messages table. -/
structure StoredMessage where
  id : Nat
  product_id : String
  sender_id : String
  recipient_id : String
  content : String
  read_at : Option Nat
  created_at : Nat
deriving DecidableEq

/-- Store state: the message log plus the id counter and clock used for
server-assigned ids and timestamps. -/
structure Store where
  msgs : List StoredMessage
  nextId : Nat
  now : Nat
deriving DecidableEq

/-- Validation errors of the append operation. -/
inductive SendError where
  | InvalidSender
  | EmptyContent
deriving DecidableEq

/-- Modelled from the spec: the body of the send_product_message RPC is not
in the repository snapshot (only its typed declaration and its caller
messageService.sendProductMessage).  Spec section 4.1: append fails with
InvalidSender if sender = recipient, fails with EmptyContent if the content
is blank after trimming, and otherwise persists and returns the new message
with a server-assigned id and timestamp. -/
def append (st : Store) (sender recipient productId content : String) :
    Except SendError (StoredMessage × Store) :=
  if sender = recipient then .error .InvalidSender
  else if jsTrim content = "" then .error .EmptyContent
  else
    let m : StoredMessage :=
      ⟨st.nextId, productId, sender, recipient, jsTrim content, none, st.now⟩
    .ok (m, ⟨st.msgs ++ [m], st.nextId + 1, st.now + 1⟩)

/-- The store state after an append attempt: unchanged when the append was
rejected. -/
def appendStore (st : Store) (sender recipient productId content : String) :
    Store :=
  match append st sender recipient productId content with
  | .ok (_, st2) => st2
  | .error _ => st

/-- The rows selected by markRead: unread messages of the thread, addressed
to the reader and sent by the counterparty on the given product. -/
def readPending (u c p : String) (m : StoredMessage) : Bool :=
  decide (m.recipient_id = u) && decide (m.sender_id = c) &&
    decide (m.product_id = p) && decide (m.read_at = none)

/-- Modelled from the spec: the body of the mark_product_messages_as_read RPC
is not in the repository snapshot (only its typed declaration and its caller
messageService.markMessagesAsRead).  Spec section 4.1: markRead stamps
read_at on the currently unread rows of the (reader, counterparty, product)
scope and reports how many rows it updated; re-invoking after all messages
are read updates zero rows and is not an error. -/
def markRead (st : Store) (u c p : String) : Store × Nat :=
  (⟨st.msgs.map (fun m =>
      if readPending u c p m then { m with read_at := some st.now } else m),
    st.nextId, st.now + 1⟩,
   st.msgs.countP (readPending u c p))

/-- Unread count for a user across all conversations (spec section 4.1,
countUnread). -/
def countUnread (st : Store) (u : String) : Nat :=
  st.msgs.countP (fun m => decide (m.recipient_id = u) && decide (m.read_at = none))

/-- messageService.getUnreadMessageCount: the try body throws when the
backend is not configured or the RPC reports an error, and returns
data || 0 otherwise; the catch branch turns any failure into 0. -/
def getUnreadMessageCount (configured : Bool) (rpc : Except String (Option Nat)) :
    Nat :=
  if configured then
    match rpc with
    | .error _ => 0
    | .ok data => data.getD 0
  else 0

/-! ## Client send (sendMessage in useProductMessages) -/

/-- Outcome of one client sendMessage call: the early-return guard (skipped),
a successful send, or a rethrown service error. -/
inductive ClientSendOutcome where
  | skipped
  | sent (m : StoredMessage)
  | failed (e : SendError)
deriving DecidableEq

/-- messageService.sendProductMessage forwards content.trim() to the
send_product_message RPC (append). -/
def sendProductMessageService (st : Store) (uid productId recipientId content : String) :
    Except SendError (StoredMessage × Store) :=
  append st uid recipientId productId (jsTrim content)

/-- sendMessage of useProductMessages: the guard
if (!productId || !otherUserId || !user || !content.trim()) return;
then the service call, whose error is rethrown. -/
def sendMessage (productId otherUserId userId : Option String) (content : String)
    (st : Store) : ClientSendOutcome × Store :=
  match productId, otherUserId, userId with
  | some pid, some oid, some uid =>
    if jsTrim content = "" then (.skipped, st)
    else
      match sendProductMessageService st uid pid oid content with
      | .ok (m, st2) => (.sent m, st2)
      | .error e => (.failed e, st)
  | _, _, _ => (.skipped, st)

/-! ## Conversation aggregation (useConversations in AuthContext.tsx) -/

/-- The other_participant object of a conversation summary. -/
structure Participant where
  id : String
  name : String
  verified : Bool
deriving DecidableEq

/-- A conversation summary as shaped by messageService.getUserConversations. -/
structure ProductConversation where
  id : String
  product_id : String
  product_title : String
  other : Participant
  last_message_content : String
  last_message_at : Nat
  has_unread : Bool
  is_buyer : Bool
deriving DecidableEq

/-- A row of the get_user_conversations RPC result. -/
structure ConvRow where
  product_id : String
  product_title : String
  other_user_id : String
  other_user_name : String
  other_user_verified : Bool
  last_message_content : String
  last_message_at : Nat
  unread_count : Nat
  is_buyer : Bool
deriving DecidableEq

/-- The row formatting inside messageService.getUserConversations. -/
def formatConversation (conv : ConvRow) : ProductConversation :=
  ⟨conv.product_id ++ "-" ++ conv.other_user_id,
    conv.product_id, conv.product_title,
    ⟨conv.other_user_id, conv.other_user_name, conv.other_user_verified⟩,
    conv.last_message_content, conv.last_message_at,
    decide (conv.unread_count > 0), conv.is_buyer⟩

/-- messageService.getUserConversations maps the RPC rows through the
formatter. -/
def getUserConversations (rows : List ConvRow) : List ProductConversation :=
  rows.map formatConversation

/-- The dedup key used by fetchConversations: the template string joining
conv.product_id and conv.other_participant.id with a dash. -/
def convKey (conv : ProductConversation) : String :=
  conv.product_id ++ "-" ++ conv.other.id

/-- One step of the uniqueConversations fold in fetchConversations:
if (!map.has(key) || conv.last_message_at is strictly later) map.set(key, conv). -/
def convStep (acc : List (String × ProductConversation))
    (conv : ProductConversation) : List (String × ProductConversation) :=
  match mapGet acc (convKey conv) with
  | none => mapSet acc (convKey conv) conv
  | some existing =>
    if existing.last_message_at < conv.last_message_at then
      mapSet acc (convKey conv) conv
    else acc

/-- fetchConversations of useConversations: build the uniqueConversations Map
from scratch over the fetched data and take its values. -/
def fetchConversations (data : List ProductConversation) :
    List ProductConversation :=
  mapValues (data.foldl convStep [])

/-- One full fetch of useConversations over the current RPC result. -/
def useConversationsFetch (rows : List ConvRow) : List ProductConversation :=
  fetchConversations (getUserConversations rows)

/-- setConversations replaces the hook state wholesale with the fresh
snapshot; the previous state is not consulted. -/
def conversationsStateUpdate (_s : List ProductConversation) (rows : List ConvRow) :
    List ProductConversation :=
  useConversationsFetch rows

/-! ## Concrete fixtures -/

/-- A cached message fixture. -/
def msgA1 : ProductMessage :=
  ⟨"m1", "p1", "alice", "bob", "salut", none, 10, "Alice", "Bob"⟩

/-- The same id as msgA1 with a different read_at. -/
def msgA2 : ProductMessage := { msgA1 with read_at := some 20 }

/-- Fixture with created_at 1. -/
def msgT1 : ProductMessage :=
  ⟨"t1", "p1", "alice", "bob", "un", none, 1, "Alice", "Bob"⟩

/-- Fixture with created_at 2. -/
def msgT2 : ProductMessage :=
  ⟨"t2", "p1", "bob", "alice", "deux", none, 2, "Bob", "Alice"⟩

/-- Fixture with created_at 3. -/
def msgT3 : ProductMessage :=
  ⟨"t3", "p1", "alice", "bob", "trois", none, 3, "Alice", "Bob"⟩

/-- An empty store fixture. -/
def st0 : Store := ⟨[], 0, 0⟩

/-- A raw event fixture between alice and bob on product p1. -/
def evW : RawMessage := ⟨"m9", "p1", "alice", "bob", "salut", none, 5⟩

/-- The decorated re-fetch of evW with both user joins present. -/
def fetchedW : FetchedMessage :=
  ⟨"m9", "p1", "alice", "bob", "salut", none, 5,
    some ⟨"alice", "Alice"⟩, some ⟨"bob", "Bob"⟩⟩

/-- The decorated re-fetch of evW with both user joins missing. -/
def fetchedNoSender : FetchedMessage :=
  ⟨"m9", "p1", "alice", "bob", "salut", none, 5, none, none⟩

/-! ## Map lemmas -/

/-- A map whose every binding keys its value by f, with no duplicate keys. -/
def KeyedBy {α : Type} (f : α → String) (m : List (String × α)) : Prop :=
  (m.map Prod.fst).Nodup ∧ ∀ p ∈ m, p.1 = f p.2

lemma mapSet_map_fst_overwrite {α : Type} (m : List (String × α)) (k : String)
    (v : α) (h : m.any (fun p => decide (p.1 = k)) = true) :
    (mapSet m k v).map Prod.fst = m.map Prod.fst := by
  simp only [mapSet, h, if_true]
  rw [List.map_map]
  apply List.map_congr_left
  intro p _
  by_cases hp : p.1 = k
  · simp [hp]
  · simp [hp]

lemma keyedBy_mapSet {α : Type} (f : α → String) (m : List (String × α)) (v : α)
    (h : KeyedBy f m) : KeyedBy f (mapSet m (f v) v) := by
  obtain ⟨hnd, hkey⟩ := h
  by_cases hany : m.any (fun p => decide (p.1 = f v)) = true
  · constructor
    · rw [mapSet_map_fst_overwrite m (f v) v hany]
      exact hnd
    · intro p hp
      simp only [mapSet, hany, if_true] at hp
      obtain ⟨q, hq, hqe⟩ := List.mem_map.mp hp
      by_cases hq1 : q.1 = f v
      · simp only [hq1, if_true] at hqe
        rw [← hqe]
      · simp only [hq1, if_false] at hqe
        rw [← hqe]
        exact hkey q hq
  · have hany2 : m.any (fun p => decide (p.1 = f v)) = false :=
      Bool.eq_false_iff.mpr hany
    have hnotin : f v ∉ m.map Prod.fst := by
      intro hmem
      obtain ⟨q, hq, hqe⟩ := List.mem_map.mp hmem
      have := List.any_eq_false.mp hany2 q hq
      simp [hqe] at this
    constructor
    · simp only [mapSet, hany2, Bool.false_eq_true, if_false]
      rw [List.map_append]
      simp only [List.map_cons, List.map_nil]
      rw [List.nodup_append]
      refine ⟨hnd, List.nodup_singleton _, ?_⟩
      intro a ha hb
      simp only [List.mem_singleton] at hb
      exact hnotin (hb ▸ ha)
    · intro p hp
      simp only [mapSet, hany2, Bool.false_eq_true, if_false] at hp
      rcases List.mem_append.mp hp with hin | hin
      · exact hkey p hin
      · simp only [List.mem_singleton] at hin
        rw [hin]

lemma keyedBy_values_map_nodup {α : Type} (f : α → String)
    (m : List (String × α)) (h : KeyedBy f m) : ((mapValues m).map f).Nodup := by
  obtain ⟨hnd, hkey⟩ := h
  have : (mapValues m).map f = m.map Prod.fst := by
    unfold mapValues
    rw [List.map_map]
    apply List.map_congr_left
    intro p hp
    exact (hkey p hp).symm
  rw [this]
  exact hnd

lemma keyedBy_countP_values_le_one {α : Type} (f : α → String)
    (m : List (String × α)) (q : α → Bool) (K : String)
    (hq : ∀ a, q a = true → f a = K) :
    KeyedBy f m → (mapValues m).countP q ≤ 1 := by
  induction m with
  | nil =>
    intro _
    simp [mapValues]
  | cons e rest ih =>
    intro h
    obtain ⟨hnd, hkey⟩ := h
    have hndr : (rest.map Prod.fst).Nodup := (List.nodup_cons.mp hnd).2
    have hnotin : e.1 ∉ rest.map Prod.fst := (List.nodup_cons.mp hnd).1
    by_cases hqe : q e.2 = true
    · have hrest0 : rest.countP (fun p => q p.2) = 0 := by
        rw [List.countP_eq_zero]
        intro p hp hqp
        have h1 : f p.2 = K := hq p.2 hqp
        have h2 : f e.2 = K := hq e.2 hqe
        have hpe : p.1 = e.1 := by
          rw [hkey p (List.mem_cons_of_mem e hp), h1, ← h2,
            ← hkey e (List.mem_cons_self e rest)]
        exact hnotin (hpe ▸ List.mem_map_of_mem Prod.fst hp)
      have hv : (List.map Prod.snd rest).countP q = 0 := by
        rw [List.countP_map]
        simpa [Function.comp] using hrest0
      have hgoal : (mapValues (e :: rest)).countP q =
          (List.map Prod.snd rest).countP q + 1 := by
        simp [mapValues, List.countP_cons, hqe]
      rw [hgoal, hv]
    · have hqe2 : q e.2 = false := Bool.eq_false_iff.mpr hqe
      have ihr : (mapValues rest).countP q ≤ 1 :=
        ih ⟨hndr, fun p hp => hkey p (List.mem_cons_of_mem e hp)⟩
      simp only [mapValues, List.map_cons, List.countP_cons, hqe2]
      simpa [mapValues] using ihr

lemma find?_overwrite {α : Type} (m : List (String × α)) (k : String) (v : α)
    (h : m.any (fun p => decide (p.1 = k)) = true) :
    (m.map (fun p => if p.1 = k then (k, v) else p)).find?
      (fun p => decide (p.1 = k)) = some (k, v) := by
  induction m with
  | nil => simp at h
  | cons e rest ih =>
    by_cases he : e.1 = k
    · simp [List.find?, he]
    · have hr : rest.any (fun p => decide (p.1 = k)) = true := by
        simpa [List.any_cons, he] using h
      simp [List.find?, he, ih hr]

lemma find?_append_absent {α : Type} (m : List (String × α)) (k : String) (v : α)
    (h : m.any (fun p => decide (p.1 = k)) = false) :
    (m ++ [(k, v)]).find? (fun p => decide (p.1 = k)) = some (k, v) := by
  induction m with
  | nil => simp [List.find?]
  | cons e rest ih =>
    simp only [List.any_cons, Bool.or_eq_false_iff] at h
    have he : (decide (e.1 = k)) = false := h.1
    simp only [List.cons_append, List.find?, he]
    exact ih h.2

lemma mapGet_mapSet_self {α : Type} (m : List (String × α)) (k : String) (v : α) :
    mapGet (mapSet m k v) k = some v := by
  unfold mapGet mapSet
  by_cases hany : m.any (fun p => decide (p.1 = k)) = true
  · simp [hany, find?_overwrite m k v hany]
  · have h2 : m.any (fun p => decide (p.1 = k)) = false :=
      Bool.eq_false_iff.mpr hany
    simp [h2, find?_append_absent m k v h2]

/-! ## Sorting lemmas -/

lemma insertionSort_countP (l : List ProductMessage) (p : ProductMessage → Bool) :
    (List.insertionSort byCreatedAt l).countP p = l.countP p :=
  (List.perm_insertionSort byCreatedAt l).countP_eq p

lemma mem_insertionSort {l : List ProductMessage} {m : ProductMessage} :
    m ∈ List.insertionSort byCreatedAt l ↔ m ∈ l :=
  (List.perm_insertionSort byCreatedAt l).mem_iff

lemma mergePush_sorted (prev : List ProductMessage) (m : ProductMessage)
    (h : List.Sorted byCreatedAt prev) :
    List.Sorted byCreatedAt (mergePush prev m) := by
  unfold mergePush
  split
  · exact h
  · exact List.sorted_insertionSort byCreatedAt (prev ++ [m])

lemma foldl_mergePush_sorted (pushes : List ProductMessage)
    (init : List ProductMessage) (h : List.Sorted byCreatedAt init) :
    List.Sorted byCreatedAt (pushes.foldl mergePush init) := by
  induction pushes generalizing init with
  | nil => exact h
  | cons p ps ih => exact ih (mergePush init p) (mergePush_sorted init p h)

lemma foldl_mapSet_keyed {α : Type} (f : α → String) (data : List α)
    (init : List (String × α)) (h : KeyedBy f init) :
    KeyedBy f (data.foldl (fun acc x => mapSet acc (f x) x) init) := by
  induction data generalizing init with
  | nil => exact h
  | cons x xs ih => exact ih (mapSet init (f x) x) (keyedBy_mapSet f init x h)

/-! ## Claim C2: cache deduplication by id -/

/-- C2 counterexample.  The claim states that on both fetch paths a message
whose id is already cached is discarded, never overwriting the cached entry.
On the initial bulk-fetch path the uniqueMessages Map is built with
uniqueMessages.set(msg.id, msg), which overwrites the entry already stored
under that id: with msgA2 equal to msgA1 except for read_at, processing
[msgA1, msgA2] keeps msgA2, so the cached msgA1 was overwritten rather than
msgA2 discarded. -/
theorem fetch_dedup_overwrites_existing_entry :
    fetchMessagesResult [msgA1, msgA2] = [msgA2] ∧ msgA2 ≠ msgA1 := by
  decide

/-- C2 amended: (1) on the realtime-push path, merging a message whose id is
already cached leaves the cache unchanged; (2) merging the same message twice
into a push cache that does not yet hold its id yields exactly one occurrence
of that id; (3) the bulk-fetch path also yields at most one occurrence per id
(its output ids are pairwise distinct); but (4) on the bulk-fetch path the
Map entry is overwritten by the latest arrival with that id, not kept. -/
theorem cache_dedup_by_id_amended :
    (∀ (prev : List ProductMessage) (m : ProductMessage),
      prev.any (fun x => decide (x.id = m.id)) = true → mergePush prev m = prev) ∧
    (∀ (prev : List ProductMessage) (m : ProductMessage),
      prev.countP (fun x => decide (x.id = m.id)) = 0 →
      (mergePush (mergePush prev m) m).countP (fun x => decide (x.id = m.id)) = 1) ∧
    (∀ data : List ProductMessage,
      ((fetchMessagesResult data).map (fun x => x.id)).Nodup) ∧
    (∀ (cache : List (String × ProductMessage)) (m : ProductMessage),
      mapGet (mapSet cache m.id m) m.id = some m) := by
  refine ⟨?_, ?_, ?_, ?_⟩
  · intro prev m h
    simp [mergePush, h]
  · intro prev m h
    have hany : prev.any (fun x => decide (x.id = m.id)) = false := by
      rw [List.any_eq_false]
      intro x hx
      have hx0 := List.countP_eq_zero.mp h x hx
      simpa using hx0
    have h1 : mergePush prev m = List.insertionSort byCreatedAt (prev ++ [m]) := by
      simp [mergePush, hany]
    have hcount1 : (List.insertionSort byCreatedAt (prev ++ [m])).countP
        (fun x => decide (x.id = m.id)) = 1 := by
      rw [insertionSort_countP, List.countP_append, h]
      simp
    have hmem : m ∈ List.insertionSort byCreatedAt (prev ++ [m]) :=
      mem_insertionSort.mpr (by simp)
    have hany2 : (List.insertionSort byCreatedAt (prev ++ [m])).any
        (fun x => decide (x.id = m.id)) = true :=
      List.any_eq_true.mpr ⟨m, hmem, by simp⟩
    have h2 : mergePush (List.insertionSort byCreatedAt (prev ++ [m])) m =
        List.insertionSort byCreatedAt (prev ++ [m]) := by
      simp [mergePush, hany2]
    rw [h1, h2, hcount1]
  · intro data
    have hk := foldl_mapSet_keyed (fun msg : ProductMessage => msg.id) data []
      ⟨List.nodup_nil, by simp⟩
    have hv := keyedBy_values_map_nodup (fun msg : ProductMessage => msg.id) _ hk
    have hperm :
        ((List.insertionSort byCreatedAt
            (mapValues (data.foldl (fun acc msg => mapSet acc msg.id msg) []))).map
          (fun x : ProductMessage => x.id)).Perm
        ((mapValues (data.foldl (fun acc msg => mapSet acc msg.id msg) [])).map
          (fun x : ProductMessage => x.id)) :=
      (List.perm_insertionSort byCreatedAt _).map _
    unfold fetchMessagesResult
    exact hperm.nodup_iff.mpr hv
  · intro cache m
    exact mapGet_mapSet_self cache m.id m

/-- C2 amended witness: the amended theorem applied at concrete inputs. -/
theorem cache_dedup_by_id_amended_witness :
    mergePush [msgA1] msgA1 = [msgA1] ∧
    (mergePush (mergePush [] msgA1) msgA1).countP
      (fun x => decide (x.id = msgA1.id)) = 1 :=
  ⟨cache_dedup_by_id_amended.1 [msgA1] msgA1 (by decide),
   cache_dedup_by_id_amended.2.1 [] msgA1 (by decide)⟩

/-! ## Claim C3: cache ordering by created_at -/

/-- C3: any cache state reachable by an initial fetch followed by arbitrary
realtime pushes is sorted by created_at ascending, and inserting messages
with timestamps 1 < 2 < 3 in the order 2, 1, 3 yields the chronological
order 1, 2, 3, with the late message placed in position, not appended. -/
theorem cache_ordering_by_created_at :
    (∀ (data pushes : List ProductMessage),
      List.Sorted byCreatedAt (pushes.foldl mergePush (fetchMessagesResult data))) ∧
    List.foldl mergePush [] [msgT2, msgT1, msgT3] = [msgT1, msgT2, msgT3] := by
  constructor
  · intro data pushes
    apply foldl_mergePush_sorted
    unfold fetchMessagesResult
    exact List.sorted_insertionSort byCreatedAt _
  · decide

/-! ## Claim C1: product-scoped delivery filter -/

/-- C1: the product-scoped subscription invokes its callback only when the
event pair (sender_id, recipient_id) is exactly the current user and the
chosen counterparty, in either direction; an event on the same product with
any other counterparty is never delivered. -/
theorem product_subscription_exact_counterparty :
    ∀ (u otherUserId productId : String) (ev : RawMessage)
      (fetched : Option FetchedMessage),
      (deliverProduct productId otherUserId (some u) ev fetched).isSome = true →
      ((ev.sender_id = u ∧ ev.recipient_id = otherUserId) ∨
        (ev.sender_id = otherUserId ∧ ev.recipient_id = u)) := by
  intro u oid pid ev fetched h
  unfold deliverProduct at h
  by_cases hp : ev.product_id = pid
  · rw [if_pos hp] at h
    by_cases hf : pairFilter u oid ev = true
    · unfold pairFilter at hf
      simp only [Bool.or_eq_true, Bool.and_eq_true, decide_eq_true_eq] at hf
      exact hf
    · have hf2 : pairFilter u oid ev = false := Bool.eq_false_iff.mpr hf
      simp [hf2] at h
  · rw [if_neg hp] at h
    simp at h

/-- C1 witness: a matching event is delivered and its pair is the exact
(current user, counterparty) pair. -/
theorem product_subscription_exact_counterparty_witness :
    (deliverProduct "p1" "bob" (some "alice") evW (some fetchedW)).isSome = true ∧
    ((evW.sender_id = "alice" ∧ evW.recipient_id = "bob") ∨
      (evW.sender_id = "bob" ∧ evW.recipient_id = "alice")) :=
  ⟨by decide,
   product_subscription_exact_counterparty "alice" "bob" "p1" evW (some fetchedW)
     (by decide)⟩

/-! ## Claim C8: identity-resolution failures never drop the event -/

/-- C8: for an event passing the scope filter whose re-fetch returned a row,
the callback receives the decorated message; a missing sender (or recipient)
join is replaced by the placeholder name Unknown instead of dropping the
event. -/
theorem delivery_substitutes_unknown_identity :
    ∀ (productId otherUserId u : String) (ev : RawMessage) (row : FetchedMessage),
      ev.product_id = productId → pairFilter u otherUserId ev = true →
      deliverProduct productId otherUserId (some u) ev (some row) =
        some (decorate row) ∧
      (row.sender = none → (decorate row).sender_name = "Unknown") ∧
      (row.recipient = none → (decorate row).recipient_name = "Unknown") := by
  intro pid oid u ev row hp hf
  refine ⟨?_, ?_, ?_⟩
  · simp [deliverProduct, hp, hf]
  · intro hs
    simp [decorate, orUnknown, hs]
  · intro hr
    simp [decorate, orUnknown, hr]

/-- C8 witness: with both joins missing the event is still delivered, with
Unknown substituted for both names. -/
theorem delivery_substitutes_unknown_identity_witness :
    deliverProduct "p1" "bob" (some "alice") evW (some fetchedNoSender) =
      some (decorate fetchedNoSender) ∧
    (decorate fetchedNoSender).sender_name = "Unknown" ∧
    (decorate fetchedNoSender).recipient_name = "Unknown" := by
  have h := delivery_substitutes_unknown_identity "p1" "bob" "alice" evW
    fetchedNoSender (by decide) (by decide)
  exact ⟨h.1, h.2.1 rfl, h.2.2 rfl⟩

/-! ## Claim C7: failed subscription setup degrades to a no-op handle -/

/-- C7: when subscription setup fails, both subscribe operations return the
inert handle; unsubscribing it returns without an error regardless of the
channel teardown oracle, and no event is ever delivered through it. -/
theorem failed_subscription_noop_handle :
    ∀ (userId productId otherUserId : String),
      subscribeToUserMessages false userId = .inert ∧
      subscribeToProductMessages false productId otherUserId = .inertP ∧
      (∀ ext : Except String Unit, userUnsubscribe ext .inert = .ok ()) ∧
      (∀ ext : Except String Unit, productUnsubscribe ext .inertP = .ok ()) ∧
      (∀ ev : RawMessage, deliverUser .inert ev = false) ∧
      (∀ (cu : Option String) (ev : RawMessage) (f : Option FetchedMessage),
        deliverOnProductHandle .inertP cu ev f = none) := by
  intro uid pid oid
  exact ⟨rfl, rfl, fun _ => rfl, fun _ => rfl, fun _ => rfl, fun _ _ _ => rfl⟩

/-! ## Claim C4: self-send is rejected with InvalidSender -/

/-- C4: for every store state, user X, product and content, appending a
message with sender equal to recipient fails with InvalidSender and leaves
the store unchanged. -/
theorem append_self_send_invalid_sender :
    ∀ (st : Store) (X productId content : String),
      append st X X productId content = .error .InvalidSender ∧
      appendStore st X X productId content = st := by
  intro st X pid content
  constructor
  · simp [append]
  · simp [appendStore, append]

/-! ## Claim C10: unread count swallows every failure into 0 -/

/-- C10: getUnreadMessageCount never surfaces a failure: with the backend
unconfigured or the RPC failing it returns 0, the same value as a successful
call that found no unread messages. -/
theorem unread_count_error_swallowing :
    ∀ (configured : Bool) (rpc : Except String (Option Nat)),
      (configured = false ∨ ∃ e, rpc = .error e) →
      getUnreadMessageCount configured rpc = 0 ∧
      getUnreadMessageCount configured rpc = getUnreadMessageCount true (.ok none) := by
  intro cfg rpc h
  have h0 : getUnreadMessageCount cfg rpc = 0 := by
    rcases h with hc | ⟨e, he⟩
    · simp [getUnreadMessageCount, hc]
    · cases cfg <;> simp [getUnreadMessageCount, he]
  exact ⟨h0, by rw [h0]; rfl⟩

/-- C10 witness: an unconfigured backend yields 0 even when the transport
would have reported 7 unread messages. -/
theorem unread_count_error_swallowing_witness :
    getUnreadMessageCount false (.ok (some 7)) = 0 ∧
    getUnreadMessageCount false (.ok (some 7)) = getUnreadMessageCount true (.ok none) :=
  unread_count_error_swallowing false (.ok (some 7)) (Or.inl rfl)

/-! ## Claim C5: blank content on the exposed send -/

/-- C5 counterexample.  The claim states that the exposed send operation
rejects blank-after-trim content with an EmptyContent validation error.  The
sendMessage guard of useProductMessages instead returns early without
surfacing any error: with whitespace content the call is skipped silently
and no failure outcome is produced. -/
theorem blank_content_send_silently_skipped :
    sendMessage (some "p1") (some "bob") (some "alice") "   " st0 = (.skipped, st0) ∧
    ClientSendOutcome.skipped ≠ ClientSendOutcome.failed .EmptyContent := by
  constructor
  · decide
  · decide

/-- C5 amended: blank-after-trim content is rejected synchronously by the
exposed sendMessage as a silent early return: the store is not called and
nothing is persisted, but no EmptyContent error is surfaced there.  The
EmptyContent rejection holds one level down, at the message service append,
when blank content reaches it with a valid sender. -/
theorem blank_content_send_amended :
    (∀ (pid oid uid content : String) (st : Store), jsTrim content = "" →
      sendMessage (some pid) (some oid) (some uid) content st = (.skipped, st)) ∧
    (∀ (st : Store) (uid pid oid content : String), jsTrim content = "" →
      uid ≠ oid →
      sendProductMessageService st uid pid oid content = .error .EmptyContent) := by
  constructor
  · intro pid oid uid content st h
    simp [sendMessage, h]
  · intro st uid pid oid content h hne
    unfold sendProductMessageService append
    rw [h, if_neg hne, if_pos (by decide)]

/-- C5 amended witness: the amended theorem at concrete inputs. -/
theorem blank_content_send_amended_witness :
    sendMessage (some "p1") (some "bob") (some "alice") " " st0 = (.skipped, st0) ∧
    sendProductMessageService st0 "alice" "p1" "bob" " " = .error .EmptyContent :=
  ⟨blank_content_send_amended.1 "p1" "bob" "alice" " " st0 (by decide),
   blank_content_send_amended.2 st0 "alice" "p1" "bob" " " (by decide) (by decide)⟩

/-! ## Claim C9: markRead is idempotent -/

lemma map_ite_id {α : Type} (l : List α) (p : α → Bool) (f : α → α)
    (h : ∀ x ∈ l, p x = false) :
    l.map (fun x => if p x then f x else x) = l := by
  induction l with
  | nil => rfl
  | cons a t ih =>
    simp only [List.map_cons, h a (List.mem_cons_self a t), Bool.false_eq_true,
      if_false, List.cons.injEq, true_and]
    exact ih (fun x hx => h x (List.mem_cons_of_mem a hx))

lemma readPending_after_mark (u c p : String) (t : Nat) (m : StoredMessage) :
    readPending u c p
      (if readPending u c p m then { m with read_at := some t } else m) = false := by
  by_cases h : readPending u c p m = true
  · rw [if_pos h]
    simp [readPending]
  · rw [if_neg h]
    exact Bool.eq_false_iff.mpr h

/-- C9: a second markRead on the same (reader, counterparty, product) scope
updates zero rows, leaves the message log exactly as the first call left it,
and does not change the unread count; re-invoking when everything is already
read is a successful no-op, not an error. -/
theorem mark_read_idempotent :
    ∀ (st : Store) (u c p : String),
      (markRead (markRead st u c p).1 u c p).2 = 0 ∧
      (markRead (markRead st u c p).1 u c p).1.msgs = (markRead st u c p).1.msgs ∧
      countUnread (markRead (markRead st u c p).1 u c p).1 u =
        countUnread (markRead st u c p).1 u := by
  intro st u c p
  have hall : ∀ x ∈ (markRead st u c p).1.msgs, readPending u c p x = false := by
    intro x hx
    have hxx : x ∈ st.msgs.map (fun m =>
        if readPending u c p m then { m with read_at := some st.now } else m) := hx
    obtain ⟨m, _, hme⟩ := List.mem_map.mp hxx
    rw [← hme]
    exact readPending_after_mark u c p st.now m
  have hmap : (markRead (markRead st u c p).1 u c p).1.msgs =
      (markRead st u c p).1.msgs :=
    map_ite_id (markRead st u c p).1.msgs (readPending u c p) _ hall
  refine ⟨?_, hmap, ?_⟩
  · show ((markRead st u c p).1.msgs).countP (readPending u c p) = 0
    rw [List.countP_eq_zero]
    intro x hx
    simp [hall x hx]
  · show ((markRead (markRead st u c p).1 u c p).1.msgs).countP _ =
      ((markRead st u c p).1.msgs).countP _
    rw [hmap]

/-! ## Claim C6: aggregation dedups by the (product, counterparty) pair -/

lemma convStep_keyed (acc : List (String × ProductConversation))
    (conv : ProductConversation) (h : KeyedBy convKey acc) :
    KeyedBy convKey (convStep acc conv) := by
  unfold convStep
  cases mapGet acc (convKey conv) with
  | none => exact keyedBy_mapSet convKey acc conv h
  | some existing =>
    show KeyedBy convKey
      (if existing.last_message_at < conv.last_message_at then
        mapSet acc (convKey conv) conv
      else acc)
    by_cases hlt : existing.last_message_at < conv.last_message_at
    · rw [if_pos hlt]
      exact keyedBy_mapSet convKey acc conv h
    · rw [if_neg hlt]
      exact h

lemma foldl_convStep_keyed (data : List ProductConversation)
    (init : List (String × ProductConversation)) (h : KeyedBy convKey init) :
    KeyedBy convKey (data.foldl convStep init) := by
  induction data generalizing init with
  | nil => exact h
  | cons x xs ih => exact ih (convStep init x) (convStep_keyed init x h)

/-- C6: every useConversations fetch yields each (product_id, counterparty)
pair at most once, and re-running the fetch over the same rows replaces the
hook state with the identical snapshot: no duplicate groups accumulate
across calls, because the Map is rebuilt from scratch each time. -/
theorem conversation_aggregation_unique_pairs :
    (∀ (rows : List ConvRow) (p c : String),
      ((useConversationsFetch rows).filter
        (fun v => decide (v.product_id = p) && decide (v.other.id = c))).length ≤ 1) ∧
    (∀ (s : List ProductConversation) (rows : List ConvRow),
      conversationsStateUpdate (conversationsStateUpdate s rows) rows =
        conversationsStateUpdate s rows) := by
  constructor
  · intro rows p c
    have hk : KeyedBy convKey ((getUserConversations rows).foldl convStep []) :=
      foldl_convStep_keyed (getUserConversations rows) []
        ⟨List.nodup_nil, by simp⟩
    have hq : ∀ v : ProductConversation,
        (decide (v.product_id = p) && decide (v.other.id = c)) = true →
        convKey v = p ++ "-" ++ c := by
      intro v hv
      simp only [Bool.and_eq_true, decide_eq_true_eq] at hv
      unfold convKey
      rw [hv.1, hv.2]
    have hle := keyedBy_countP_values_le_one convKey
      ((getUserConversations rows).foldl convStep [])
      (fun v => decide (v.product_id = p) && decide (v.other.id = c))
      (p ++ "-" ++ c) hq hk
    rw [← List.countP_eq_length_filter]
    exact hle
  · intro s rows
    rfl

end Masociete
